import Mathlib

/-!
Verification of the tag/window-management core of dwm (src/dwm.c, configured
by src/config.def.h) against its natural-language specification.

Shallow embedding conventions:
* C `unsigned int` values are modelled as `Nat`; where 32-bit wrap-around
  matters it is written explicitly as `% 2^32`.
* C `int` values are modelled as `Int`; C integer division truncates toward
  zero and is modelled by `Int.tdiv`.
* C `float` values (`mfact`, `cfact`) are modelled as `ℚ`; the claims
  settled over them concern control flow and exact proportional arithmetic,
  not floating-point rounding.
* Intrusive singly-linked client lists (`Monitor.clients` via `Client.next`,
  `Monitor.stack` via `Client.snext`) are modelled as `List Client`; the C
  code identifies clients by node pointers, modelled here by a unique `id`
  field.
* X11 calls (drawing, window configuration, input focus) have no effect on
  the modelled state and are omitted.
-/

namespace Dwm

/-- `LENGTH(tags)` for `static char *tags[] = { "1", ..., "6" }` in
src/config.def.h (6 tags). -/
def tagsLength : Nat := 6

/-- `#define TAGMASK ((1 << LENGTH(tags)) - 1)` (src/dwm.c line 71). -/
def TAGMASK : Nat := (1 <<< tagsLength) - 1

/-- `~0` as a C `unsigned int` (32-bit all-ones). -/
def UINTMAX : Nat := 2 ^ 32 - 1

/-! ## Client tag bitmask operations (claims about `toggletag` and
`applyrules`) -/

/-- The effect of `toggletag` (src/dwm.c lines 3013-3045) on the selected
client's tag bitmask: `newtags = selmon->sel->tags ^ (arg->ui & TAGMASK);
if (newtags) selmon->sel->tags = newtags;` — a zero XOR result is rejected
and the bitmask is left unchanged.  The Pertag reload and re-arrange in the
accepting branch do not touch the client's bitmask. -/
def toggletagTags (tags ui : Nat) : Nat :=
  let newtags := tags ^^^ (ui &&& TAGMASK)
  if newtags ≠ 0 then newtags else tags

/-- The final tag assignment of `applyrules` (src/dwm.c line 571):
`c->tags = c->tags & TAGMASK ? c->tags & TAGMASK : c->mon->tagset[c->mon->seltags];`
where `ruleTags` is the accumulated `c->tags` from the matching rules and
`monTagset` the monitor's active tag set. -/
def applyrulesTags (ruleTags monTagset : Nat) : Nat :=
  if ruleTags &&& TAGMASK ≠ 0 then ruleTags &&& TAGMASK else monTagset

/-! ## Master count (claim about `incnmaster` and `tile`) -/

/-- The effect of `incnmaster` (src/dwm.c lines 1801-1811) on
`selmon->nmaster`.  `n` is the number of tiled clients counted by the
`nexttiled` loop, `i` is `arg->i`, `hasArrange` is
`selmon->lt[selmon->sellt]->arrange != NULL`.  In
`selmon->nmaster + arg->i < 1` both operands are `int`, so the comparison
is signed; in `selmon->nmaster + arg->i > n` the signed sum is converted to
`unsigned int` (`n` is unsigned), so a negative sum compares huge and is
likewise rejected — for every defined C execution the guard is exactly
`sum < 1 || sum > n`.  `MAX(selmon->nmaster + arg->i, 0)` is the identity
once the guard has passed. -/
def incnmasterOp (hasArrange : Bool) (n : Int) (nmaster i : Int) : Int :=
  if ¬hasArrange ∨ nmaster + i < 1 ∨ nmaster + i > n then nmaster
  else max (nmaster + i) 0

/-- The re-clamp at the top of `tile` (src/dwm.c lines 2796-2797):
`if(m->nmaster > n) m->nmaster = (n == 0) ? 1 : n;`.  `m->nmaster` is
`int` and `n` unsigned, so the comparison converts `nmaster` to unsigned:
a negative `nmaster` (impossible for reachable states, `nmaster` starts at
1 and `incnmaster` keeps it ≥ 1) would also be clamped.  `nm32` is that
unsigned reading of `nmaster`. -/
def tileClampNmaster (n : Nat) (nmaster : Int) : Int :=
  let nm32 : Nat := (nmaster % 2 ^ 32).toNat
  if nm32 > n then (if n = 0 then 1 else (n : Int)) else nmaster

/-! ## Monitor tag-state machine (claims about `view`, `toggleview`,
`setmfact`)

The per-monitor fields that `view`, `toggleview` and `setmfact` read and
write: the double-buffered active tag mask `tagset[2]` with its toggled
index `seltags`, the live layout parameters, and the owning `Pertag` block
(arrays indexed by tag slot `0 .. LENGTH(tags)`).  The C `unsigned int
seltags` and `sellt` only ever hold 0 or 1 (they are only changed by
`^= 1`), so they are modelled as `Bool`, with `^1` as negation; the layout
pointers `lt[2]` and `ltidxs[][2]` are modelled as indices into the static
`layouts[]` table.  The clients list, stack list and selected client of the
monitor are not part of this record; the statements below concern only
these tag-state fields, and the list reshuffling at the top of
`toggleview` (src/dwm.c lines 3053-3066, a `pop` of the current masters
followed by `focus`) and the `focus`/`arrange` calls at the end of the
handlers touch none of them. -/

structure TagState where
  tagset : Bool → Nat
  seltags : Bool
  curtag : Nat
  prevtag : Nat
  nmaster : Int
  mfact : ℚ
  sellt : Bool
  lt : Bool → Nat
  ltaxis : Fin 3 → Int
  showbar : Bool
  showebar : Bool
  nmasters : Nat → Int
  mfacts : Nat → ℚ
  sellts : Nat → Bool
  ltidxs : Nat → Bool → Nat
  ltaxes : Nat → Fin 3 → Int
  showbars : Nat → Bool
  showebars : Nat → Bool

/-- `togglebar` (src/dwm.c lines 2932-2934) restricted to the modelled
fields: `selmon->showbar = selmon->pertag->showbars[selmon->pertag->curtag]
= !selmon->showbar;` (the rest of the function repositions bar windows). -/
def togglebarOp (s : TagState) : TagState :=
  { s with showbar := !s.showbar,
           showbars := Function.update s.showbars s.curtag (!s.showbar) }

/-- `toggleebar` (src/dwm.c lines 2950-2952) restricted to the modelled
fields: `selmon->showebar = selmon->pertag->showebars[...] =
!selmon->showebar;`. -/
def toggleebarOp (s : TagState) : TagState :=
  { s with showebar := !s.showebar,
           showebars := Function.update s.showebars s.curtag (!s.showebar) }

/-- The index of the lowest set bit of `n`, as computed by the C idiom
`for (i = 0; !(n & 1 << i); i++)` over a 32-bit value (`n ≠ 0` in every
reachable call, so the loop terminates below 32). -/
def lowestTagBit (n : Nat) : Nat :=
  (((List.range 32).find? fun i => n.testBit i).getD 0)

/-- Lines 3463-3477 of `view`: flip the tagset buffer index, store the new
mask and update `curtag`/`prevtag` (for a non-empty masked argument), or
swap `curtag` with `prevtag` (for an empty one, the "previous view"
recall). -/
def viewCore (ui : Nat) (s : TagState) : TagState :=
  let seltags := !s.seltags
  if ui &&& TAGMASK ≠ 0 then
    { s with seltags := seltags,
             tagset := Function.update s.tagset seltags (ui &&& TAGMASK),
             prevtag := s.curtag,
             curtag := if ui = UINTMAX then 0 else lowestTagBit ui + 1 }
  else
    { s with seltags := seltags, prevtag := s.curtag, curtag := s.prevtag }

/-- Lines 3478-3489 of `view`: reload the live layout parameters from
`Pertag[curtag]`.  The C code loads `sellt` first and then writes
`lt[sellt]` and `lt[sellt^1]`, which together overwrite both entries of
`lt`.  `togglebar`/`toggleebar` are invoked exactly when the live bar
visibility disagrees with the remembered one. -/
def viewReload (s : TagState) : TagState :=
  let k := s.curtag
  let s1 := { s with nmaster := s.nmasters k, mfact := s.mfacts k,
                     sellt := s.sellts k,
                     lt := fun b => s.ltidxs k b,
                     ltaxis := fun j => s.ltaxes k j }
  let s2 := if s1.showbar ≠ s1.showbars k then togglebarOp s1 else s1
  if s2.showebar ≠ s2.showebars k then toggleebarOp s2 else s2

/-- `view` (src/dwm.c lines 3455-3492) on the modelled tag state: a no-op
when the masked argument equals the active tag mask, otherwise `viewCore`
followed by the Pertag reload.  (`switchtagpreview`, `focus(NULL)` and
`arrange` touch none of the modelled fields.) -/
def viewOp (ui : Nat) (s : TagState) : TagState :=
  if ui &&& TAGMASK = s.tagset s.seltags then s
  else viewReload (viewCore ui s)

/-- Lines 3070-3079 of `toggleview`: store the XORed mask and recompute
`curtag`/`prevtag`.  In the test on line 3075 `curtag` is `unsigned int`,
so for `curtag = 0` the C shift `1 << (curtag - 1)` has shift count
`UINT_MAX`; on the reference platform the count is taken mod 32, modelled
here as `(curtag + 31) % 32`.  (`curtag = 0` requires the preceding
`newtagset == ~0` test to have fired, which cannot happen for a 6-bit
masked tagset, so the claims below never depend on this corner.) -/
def toggleviewCore (newtagset : Nat) (s : TagState) : TagState :=
  let s1 :=
    if newtagset = UINTMAX then
      { s with tagset := Function.update s.tagset s.seltags newtagset,
               prevtag := s.curtag, curtag := 0 }
    else
      { s with tagset := Function.update s.tagset s.seltags newtagset }
  if newtagset &&& (1 <<< ((s1.curtag + 31) % 32)) = 0 then
    { s1 with prevtag := s1.curtag, curtag := lowestTagBit newtagset + 1 }
  else s1

/-- Lines 3081-3089 of `toggleview`: reload the live layout parameters from
`Pertag[curtag]`.  Unlike `view`, this reload does not copy the axis
triple `ltaxes`. -/
def toggleviewReload (s : TagState) : TagState :=
  let k := s.curtag
  let s1 := { s with nmaster := s.nmasters k, mfact := s.mfacts k,
                     sellt := s.sellts k,
                     lt := fun b => s.ltidxs k b }
  let s2 := if s1.showbar ≠ s1.showbars k then togglebarOp s1 else s1
  if s2.showebar ≠ s2.showebars k then toggleebarOp s2 else s2

/-- `toggleview` (src/dwm.c lines 3048-3093) on the modelled tag state:
XOR the active mask with the masked argument; a zero result is rejected
(no field changes), otherwise the new mask is stored, `curtag` recomputed
and the Pertag settings reloaded.  The list reshuffling on lines 3053-3066
touches only the clients/stack lists and the selection, none of the
modelled fields. -/
def toggleviewOp (ui : Nat) (s : TagState) : TagState :=
  if s.tagset s.seltags ^^^ (ui &&& TAGMASK) ≠ 0 then
    toggleviewReload (toggleviewCore (s.tagset s.seltags ^^^ (ui &&& TAGMASK)) s)
  else s

/-- `setmfact` (src/dwm.c lines 2568-2579) on the modelled tag state:
`f = arg->f < 1.0 ? arg->f + selmon->mfact : arg->f - 1.0;` then reject
`f < 0.05 || f > 0.95`, else
`selmon->mfact = selmon->pertag->mfacts[selmon->pertag->curtag] = f;`. -/
def setmfactOp (f : ℚ) (hasArrange : Bool) (s : TagState) : TagState :=
  if ¬hasArrange then s
  else
    let f' := if f < 1 then f + s.mfact else f - 1
    if f' < 0.05 ∨ f' > 0.95 then s
    else { s with mfact := f',
                  mfacts := Function.update s.mfacts s.curtag f' }

/-- A concrete tag state: active mask 1 on buffer 0, mask 2 parked on
buffer 1. -/
def tagStateA : TagState :=
  { tagset := fun b => if b then 2 else 1,
    seltags := false, curtag := 1, prevtag := 2,
    nmaster := 1, mfact := 11 / 20, sellt := false,
    lt := fun _ => 0, ltaxis := fun _ => 1,
    showbar := true, showebar := true,
    nmasters := fun _ => 1, mfacts := fun _ => 11 / 20,
    sellts := fun _ => false, ltidxs := fun _ _ => 0,
    ltaxes := fun _ _ => 1,
    showbars := fun _ => true, showebars := fun _ => true }


/-! ## Client registry and stack lists (claims about `manage`, `unmanage`,
`sendmon`, `detach`, `detachstack`, `focus`)

A monitor's two intrusive singly-linked lists (`clients` via `next`,
`stack` via `snext`) are modelled as `List Client`; C node-pointer
comparisons become comparisons of the unique `id`.  Only the fields these
operations inspect are modelled. -/

structure Client where
  id : Nat
  tags : Nat
  isfloating : Bool
deriving DecidableEq

/-- `ISVISIBLE(C)` (src/dwm.c line 66): `C->tags & C->mon->tagset[C->mon->seltags]`. -/
def isVisibleOn (tagset : Nat) (c : Client) : Bool :=
  c.tags &&& tagset != 0

structure MonLists where
  clients : List Client
  stack : List Client
  sel : Option Client
  tagset : Nat
  nmaster : Nat
deriving DecidableEq

/-- `attach` (src/dwm.c lines 679-683): prepend to the clients list. -/
def attach (c : Client) (m : MonLists) : MonLists :=
  { m with clients := c :: m.clients }

/-- `attachstack` (src/dwm.c lines 686-690): prepend to the stack list. -/
def attachstack (c : Client) (m : MonLists) : MonLists :=
  { m with stack := c :: m.stack }

/-- The pointer walk of `attachabove` (src/dwm.c lines 3602-3613):
`for (at = clients; at->next != sel; at = at->next); c->next = at->next;
at->next = c;` — insert `c` immediately before the node `sel`.  The two
base cases are unreachable under `attachabove`'s guard (`sel` is in the
list and is not its head). -/
def insertBeforeId (selId : Nat) (c : Client) : List Client → List Client
  | [] => [c]
  | [a] => [a, c]
  | a :: b :: rest =>
    if b.id = selId then a :: c :: b :: rest
    else a :: insertBeforeId selId c (b :: rest)

/-- Insert `c` immediately after the first node whose id is `selId`
(`c->next = x->next; x->next = c;` in the C list surgeries).  The `[]`
case is unreachable under the callers' guards (`selId` names a node of the
list). -/
def insertAfterId (selId : Nat) (c : Client) : List Client → List Client
  | [] => [c]
  | a :: rest =>
    if a.id = selId then a :: c :: rest
    else a :: insertAfterId selId c rest

/-- `attachabove` (src/dwm.c lines 3602-3613). -/
def attachabove (c : Client) (m : MonLists) : MonLists :=
  match m.sel with
  | none => attach c m
  | some s =>
    if (m.clients.head?.elim false fun a => a.id == s.id) ∨
        s.isfloating then attach c m
    else { m with clients := insertBeforeId s.id c m.clients }

/-- `nexttagged` (src/dwm.c lines 4678-4685): the first client of the
clients list that is not floating and shares a tag bit with `c`. -/
def nexttagged (c : Client) (m : MonLists) : Option Client :=
  m.clients.find? fun w => !w.isfloating && (w.tags &&& c.tags != 0)

/-- `attachaside` (src/dwm.c lines 3616-3624). -/
def attachaside (c : Client) (m : MonLists) : MonLists :=
  match nexttagged c m with
  | none => attach c m
  | some a => { m with clients := insertAfterId a.id c m.clients }

/-- `attachbelow` (src/dwm.c lines 3627-3635). -/
def attachbelow (c : Client) (m : MonLists) : MonLists :=
  match m.sel with
  | none => attach c m
  | some s =>
    if s.id = c.id ∨ s.isfloating then attach c m
    else { m with clients := insertAfterId s.id c m.clients }

/-- `attachbottom` (src/dwm.c lines 3638-3647): append at the list end
(or become the head of an empty list). -/
def attachbottom (c : Client) (m : MonLists) : MonLists :=
  { m with clients := m.clients ++ [c] }

/-- The walk of `attachtop` (src/dwm.c lines 3650-3665): advance while the
current node has a successor and is floating, not visible on `c`'s tags,
or the running count `n` of non-skipped nodes has not reached `nmaster`;
then insert after the node where the walk stopped (empty list: become the
head). -/
def attachtopGo (ctags nmaster n : Nat) (c : Client) : List Client → List Client
  | [] => [c]
  | [a] => [a, c]
  | a :: b :: rest =>
    if !a.isfloating && (a.tags &&& ctags != 0) && n = nmaster then
      a :: c :: b :: rest
    else
      a :: attachtopGo ctags nmaster
        (if a.isfloating || (a.tags &&& ctags == 0) then n else n + 1) c
        (b :: rest)

/-- `attachtop` (src/dwm.c lines 3650-3665).  The C code reads
`selmon->nmaster`; the monitor is the selected one at every call site. -/
def attachtop (c : Client) (m : MonLists) : MonLists :=
  { m with clients := attachtopGo c.tags m.nmaster 1 c m.clients }

/-- `detach` (src/dwm.c lines 1150-1156): unlink `c` from the clients
list. -/
def detach (c : Client) (m : MonLists) : MonLists :=
  { m with clients := m.clients.eraseP (fun a => a.id == c.id) }

/-- `detachstack` (src/dwm.c lines 1158-1170): unlink `c` from the stack
list; if `c` was the selected client, re-select the first client of the
remaining stack that is visible under the current tag view (possibly
none). -/
def detachstack (c : Client) (m : MonLists) : MonLists :=
  let stack' := m.stack.eraseP (fun a => a.id == c.id)
  let sel' := match m.sel with
    | some s => if s.id = c.id then stack'.find? (isVisibleOn m.tagset) else m.sel
    | none => m.sel
  { m with stack := stack', sel := sel' }

/-- The `attachdirection` switch shared by `manage` (src/dwm.c lines
1931-1949) and `sendmon` (lines 2418-2435). -/
def attachByDirection (dir : Nat) (c : Client) (m : MonLists) : MonLists :=
  match dir with
  | 1 => attachabove c m
  | 2 => attachaside c m
  | 3 => attachbelow c m
  | 4 => attachbottom c m
  | 5 => attachtop c m
  | _ => attach c m

/-- The list mutations of `manage` (src/dwm.c lines 1926-1967) for a
non-swallowed client: insert into the clients list per the attach policy;
insert into the stack list at the head (`attachstack`) when the client may
take focus or there is no selection/stack, else splice it in immediately
after the selected client (`c->snext = c->mon->sel->snext;
c->mon->sel->snext = c;`); finally `c->mon->sel = c` when the client takes
focus.  (The swallowed branch attaches to neither list, leaving both
unchanged; the trailing `focus(NULL)` is the separate step `Op.focusChange
none`.) -/
def manage (dir : Nat) (focusclient : Bool) (c : Client) (m : MonLists) :
    MonLists :=
  let m1 := attachByDirection dir c m
  let m2 :=
    match m1.sel with
    | some s =>
      if focusclient || m1.stack.isEmpty then attachstack c m1
      else { m1 with stack := insertAfterId s.id c m1.stack }
    | none => attachstack c m1
  if focusclient then { m2 with sel := some c } else m2

/-- The list mutations of `unmanage` (src/dwm.c lines 3109-3142):
`detach(c); detachstack(c);` (the trailing `focus(NULL)` is the separate
step `Op.focusChange none`). -/
def unmanage (c : Client) (m : MonLists) : MonLists :=
  detachstack c (detach c m)

/-- The mutations `sendmon` (src/dwm.c lines 2409-2443) applies to the
source monitor: `detach(c); detachstack(c);`. -/
def sendmonAway (c : Client) (m : MonLists) : MonLists :=
  detachstack c (detach c m)

/-- The mutations `sendmon` applies to the target monitor: assign the
target's active tag set to the client, insert per the attach policy, and
`attachstack`. -/
def sendmonInto (dir : Nat) (c : Client) (m : MonLists) : MonLists :=
  let c' := { c with tags := m.tagset }
  attachstack c' (attachByDirection dir c' m)

/-- The list mutations of `focus` (src/dwm.c lines 1605-1632): replace an
absent or invisible candidate by the first visible client of the stack;
if one exists, move it to the stack head (`detachstack(c);
attachstack(c);`) and select it, else clear the selection.  (Single
monitor modelled; `focus` never touches the clients list.) -/
def focus (cand : Option Client) (m : MonLists) : MonLists :=
  let c := match cand with
    | some c =>
      if isVisibleOn m.tagset c then some c
      else m.stack.find? (isVisibleOn m.tagset)
    | none => m.stack.find? (isVisibleOn m.tagset)
  match c with
  | some c =>
    let m' := attachstack c (detachstack c m)
    { m' with sel := some c }
  | none => { m with sel := none }

/-- The list-mutating operations of the claim: managing a new window,
unmanaging a destroyed one, the two halves of moving a client between
monitors, and the focus re-stack they all invoke. -/
inductive Op where
  | manageNew (dir : Nat) (focusclient : Bool) (c : Client)
  | unmanageOld (c : Client)
  | sendAway (c : Client)
  | sendInto (dir : Nat) (c : Client)
  | focusChange (cand : Option Client)

def stepOp : Op → MonLists → MonLists
  | .manageNew dir fc c, m => manage dir fc c m
  | .unmanageOld c, m => unmanage c m
  | .sendAway c, m => sendmonAway c m
  | .sendInto dir c, m => sendmonInto dir c m
  | .focusChange cand, m => focus cand m

/-- The C callers of `focus(c)` with a non-NULL visible candidate always
pass a currently managed client (one on the stack list); the other
operations need no precondition. -/
def opPrecond : Op → MonLists → Prop
  | .focusChange (some c), m =>
      isVisibleOn m.tagset c = true → c.id ∈ m.stack.map Client.id
  | _, _ => True

/-! ## Tiling group sizing (claim about `tile`)

The client-sizing loops of `tile` (src/dwm.c lines 2874-2883 for the
master group, lines 2904-2913 for the stack group — the two loops have the
same shape).  For a group laid out along its matching axis with more than
one row/column available (`n1 > 1`, resp. `n2 > 1`), each client except
the last receives a primary-axis extent of
`w1 * (c->cfact / mfacts) - 2*bw - m->gappx` and the position cursor
advances by `c->x + WIDTH(c) + m->gappx` (`WIDTH(c) = c->w + 2*c->bw`);
the last client of the group receives `X1 - x1 - 2*bw - m->gappx`, where
`X1 = x1 + w1` is the far group edge fixed on line 2869.  `resize` is
modelled as accepting the requested geometry (the claim concerns the
geometry `tile` computes, before the separate size-hint correction).
Arguments: `X` the far edge, `x` the running cursor, `w` the group extent,
`gap`/`bw` the gap and border, `total` the group's cfact sum, and the list
the cfacts of the group's clients in layout order. -/
def tileRowWidths (X x w gap bw total : ℚ) : List ℚ → List ℚ
  | [] => []
  | [_] => [X - x - 2 * bw - gap]
  | f :: g :: rest =>
    (w * (f / total) - 2 * bw - gap) ::
      tileRowWidths X (x + (w * (f / total) - 2 * bw - gap) + 2 * bw + gap)
        w gap bw total (g :: rest)

/-! ## Floating position resolver (claims about `getfloatpos` and
`setfloatpos`)

`setfloatpos` (src/dwm.c lines 5146-5192) parses a floating-position
expression with `sscanf(floatpos, "%d%c %d%c %d%c %d%c", ...)` and resolves
each axis with `getfloatpos` (lines 4264-4379).  C `int` arithmetic is
modelled on `Int` (division truncates toward zero: `Int.tdiv`). -/

structure Geom where
  x : Int
  y : Int
  w : Int
  h : Int
deriving DecidableEq

/-- C `isspace` in the default locale: space, \t, \n, vertical tab,
form feed, \r. -/
def isCSpace (c : Char) : Bool :=
  c == ' ' || c == '\t' || c == '\n' || c.toNat == 11 || c.toNat == 12 ||
    c == '\r'

/-- Value of a non-empty decimal digit string. -/
def digitsVal (l : List Char) : Nat :=
  l.foldl (fun a c => a * 10 + (c.toNat - 48)) 0

/-- One `sscanf` `%d` conversion: skip whitespace, optional sign, then at
least one decimal digit (otherwise a matching failure, which ends the
scan).  Returns the value and the unconsumed input. -/
def scanInt (s : List Char) : Option (Int × List Char) :=
  match s.dropWhile isCSpace with
  | '-' :: rest =>
    if rest.takeWhile Char.isDigit = [] then none
    else some (-(digitsVal (rest.takeWhile Char.isDigit) : Int),
      rest.dropWhile Char.isDigit)
  | '+' :: rest =>
    if rest.takeWhile Char.isDigit = [] then none
    else some ((digitsVal (rest.takeWhile Char.isDigit) : Int),
      rest.dropWhile Char.isDigit)
  | s1 =>
    if s1.takeWhile Char.isDigit = [] then none
    else some ((digitsVal (s1.takeWhile Char.isDigit) : Int),
      s1.dropWhile Char.isDigit)

/-- `sscanf(s, "%d%c %d%c %d%c %d%c", ...)`: up to four `%d%c` pairs (the
literal blanks in the format skip whitespace, as does `%d` itself).  The
first component is `sscanf`'s return value — the number of conversions
assigned before the first failure: each `%d` and each `%c` counts one, a
`%c` at end of input fails, and a failed `%d` ends the scan.  The second
component is the list of completely assigned pairs. -/
def scanPairs : Nat → List Char → Nat × List (Int × Char)
  | 0, _ => (0, [])
  | Nat.succ k, s =>
    match scanInt s with
    | none => (0, [])
    | some (n, r) =>
      match r with
      | [] => (1, [])
      | ch :: r2 =>
        let rest := scanPairs k r2
        (2 + rest.1, (n, ch) :: rest.2)

def scanFloatpos (s : String) : Nat × List (Int × Char) :=
  scanPairs 4 s.data

/-- `getfloatpos` (src/dwm.c lines 4264-4379) for one axis.  Argument names
follow the C code (`min_p`/`max_s` are the work-area origin and extent on
this axis, `cp`/`cs` the client's current position and size, `cbw` the
border width, `defgrid` the configured default grid).  The structure
mirrors the C function: the position `switch` (which for the sticky modes
S/C/Z may consume the size slot by clearing `sCh`), the size `switch`
(with the `%` → `w`/`h` → `W`/`H` fall-through chain), the late `%`/`m`
position modes, and the final clamps; the `G` (grid) cell-search loop is
the first index at which the cursor comparison fails, capped at the grid
count.  Returns `(*out_p, *out_s)`. -/
def getfloatpos (pos0 : Int) (pCh : Char) (size0 : Int) (sCh0 : Char)
    (min_p max_s cp0 cs0 cbw defgrid : Int) : Int × Int :=
  let abs_p := pCh = 'A' ∨ pCh = 'a'
  let abs_s := sCh0 = 'A' ∨ sCh0 = 'a'
  let cs1 := cs0 + 2 * cbw
  let t :=
    if pCh = 'A' then (pos0, pos0, cs1, sCh0)
    else if pCh = 'a' then (pos0, cp0 + pos0, cs1, sCh0)
    else if pCh = 'y' ∨ pCh = 'x' then
      (pos0, min (cp0 + pos0) (min_p + max_s), cs1, sCh0)
    else if pCh = 'Y' ∨ pCh = 'X' then
      (pos0, min_p + min pos0 max_s, cs1, sCh0)
    else if pCh = 'S' ∨ pCh = 'C' ∨ pCh = 'Z' then
      if pos0 = -1 then (pos0, cp0, cs1, sCh0)
      else
        let pos1 := max (min pos0 max_s) 0
        let cs2 :=
          if pCh = 'Z' then |cp0 + cs1 - (min_p + pos1)|
          else if pCh = 'C' then |cp0 + Int.tdiv cs1 2 - (min_p + pos1)|
          else |cp0 - (min_p + pos1)|
        (pos1, min_p + pos1, cs2, Char.ofNat 0)
    else if pCh = 'G' then
      let pos1 := if pos0 ≤ 0 then defgrid else pos0
      if size0 = 0 ∨ pos1 < 2 ∨ (sCh0 ≠ 'p' ∧ sCh0 ≠ 'P') then
        (pos1, cp0, cs1, sCh0)
      else
        let delta := Int.tdiv (max_s - cs1) (pos1 - 1)
        let rest := max_s - cs1 - delta * (pos1 - 1)
        if sCh0 = 'P' then
          if size0 < 1 ∨ size0 > pos1 then (pos1, cp0, cs1, sCh0)
          else (pos1, min_p + delta * (size0 - 1), cs1, sCh0)
        else
          let iN : Nat :=
            (((List.range pos1.toNat).find? fun (i : Nat) =>
              decide (cp0 < min_p + delta * (i : Int) +
                (if (i : Int) > pos1 - rest then (i : Int) + rest - pos1 + 1
                 else 0))).getD pos1.toNat)
          let i : Int := (iN : Int)
          (pos1,
           min_p + delta * (max (min (i + size0) pos1) 1 - 1) +
             (if i > pos1 - rest then i + rest - pos1 + 1 else 0),
           cs1, sCh0)
    else (pos0, cp0, cs1, sCh0)
  let pos := t.1
  let cp1 := t.2.1
  let cs3 := t.2.2.1
  let sCh := t.2.2.2
  let u :=
    if sCh = 'A' then (cp1, size0)
    else if sCh = 'a' then (cp1, max 1 (cs3 + size0))
    else if sCh = '%' ∨ sCh = 'h' ∨ sCh = 'w' ∨ sCh = 'H' ∨ sCh = 'W' then
      if (sCh = '%' ∧ size0 ≤ 0) ∨ ((sCh = 'w' ∨ sCh = 'h') ∧ size0 = 0) then
        (cp1, cs3)
      else
        let sz1 :=
          if sCh = '%' then Int.tdiv (max_s * min size0 100) 100
          else if sCh = 'w' ∨ sCh = 'h' then size0 + cs3
          else size0
        let sz2 :=
          if pCh = 'S' ∧ cp1 + sz1 > min_p + max_s then min_p + max_s - cp1
          else if sz1 > max_s then max_s
          else sz1
        if pCh = 'C' then
          let dlt := sz2 - cs3
          if dlt < 0 ∨ cp1 - Int.tdiv dlt 2 + sz2 ≤ min_p + max_s then
            (cp1 - Int.tdiv dlt 2, sz2)
          else if cp1 - Int.tdiv dlt 2 < min_p then (min_p, sz2)
          else if dlt ≠ 0 then (min_p + max_s, sz2)
          else (cp1, sz2)
        else if pCh = 'Z' then (cp1 - (sz2 - cs3), sz2)
        else (cp1, sz2)
    else (cp1, cs3)
  let cp2 := u.1
  let cs4 := u.2
  let cp3 :=
    if pCh = '%' then
      min_p + Int.tdiv (max_s * max (min pos 100) 0) 100 - Int.tdiv cs4 2
    else cp2
  let cp4 := if pCh = 'm' ∨ pCh = 'M' then pos - Int.tdiv cs4 2 else cp3
  let cp5 := if ¬abs_p ∧ cp4 < min_p then min_p else cp4
  let r :=
    if cp5 + cs4 > min_p + max_s ∧ ¬(abs_p ∧ abs_s) then
      if abs_p ∨ cp5 = min_p then (cp5, min_p + max_s - cp5)
      else (min_p + max_s - cs4, cs4)
    else (cp5, cs4)
  (r.1, max (r.2 - 2 * cbw) 1)

/-- `setfloatpos` (src/dwm.c lines 5146-5192) restricted to the client
geometry.  `hasArrange`/`isfloating` model the guard on line 5153;
`wx wy ww wh` the monitor work area, `bw` the (possibly
`floatborderpx`-overridden) border width, `gridx gridy` the
`floatposgrid_x`/`floatposgrid_y` defaults, and `rootx rooty` the pointer
position `getrootptr` reports for the `m`/`M` modes.  A scan count other
than 4 or 8 returns with the geometry untouched.  In the 4-field `m`/`M`
branch the C code leaves `w`, `wCh`, `h`, `hCh` uninitialized; they are
modelled as `0`/NUL (for which the size switch keeps the current size). -/
def setfloatposGeom (hasArrange isfloating : Bool)
    (wx wy ww wh bw gridx gridy rootx rooty : Int)
    (g : Geom) (fp : String) : Geom :=
  if hasArrange = true ∧ isfloating = false then g
  else
    let r := scanFloatpos fp
    if r.1 = 4 then
      match r.2 with
      | [(x0, xCh0), (y0, yCh0)] =>
        let q :=
          if xCh0 = 'w' ∨ xCh0 = 'W' then
            ((-1 : Int), 'C', (-1 : Int), 'C', x0, xCh0, y0, yCh0)
          else if xCh0 = 'p' ∨ xCh0 = 'P' then
            ((0 : Int), 'G', (0 : Int), 'G', x0, xCh0, y0, yCh0)
          else if xCh0 = 'm' ∨ xCh0 = 'M' then
            (rootx, xCh0, rooty, yCh0, (0 : Int), Char.ofNat 0, (0 : Int),
              Char.ofNat 0)
          else (x0, xCh0, y0, yCh0, (0 : Int), Char.ofNat 0, (0 : Int),
            Char.ofNat 0)
        match q with
        | (x1, xCh1, y1, yCh1, w1, wCh1, h1, hCh1) =>
          let px := getfloatpos x1 xCh1 w1 wCh1 wx ww g.x g.w bw gridx
          let py := getfloatpos y1 yCh1 h1 hCh1 wy wh g.y g.h bw gridy
          { x := px.1, y := py.1, w := px.2, h := py.2 }
      | _ => g
    else if r.1 = 8 then
      match r.2 with
      | [(x0, xCh0), (y0, yCh0), (w0, wCh0), (h0, hCh0)] =>
        let xy := if xCh0 = 'm' ∨ xCh0 = 'M' then (rootx, rooty) else (x0, y0)
        let px := getfloatpos xy.1 xCh0 w0 wCh0 wx ww g.x g.w bw gridx
        let py := getfloatpos xy.2 yCh0 h0 hCh0 wy wh g.y g.h bw gridy
        { x := px.1, y := py.1, w := px.2, h := py.2 }
      | _ => g
    else g

/-- Concrete fixtures for witnesses: two clients and a one-client
monitor. -/
def clientA : Client := { id := 1, tags := 1, isfloating := false }

def clientB : Client := { id := 2, tags := 3, isfloating := false }

def monA : MonLists :=
  { clients := [clientA], stack := [clientA], sel := some clientA,
    tagset := 1, nmaster := 1 }

/-! ## Theorems for claim C4 -/

/-- C4: a client's tag bitmask stays non-zero and within the configured tag
mask.  (i) `toggletag` with a zero XOR result is a no-op; (ii) starting
from a valid bitmask, the bitmask after `toggletag` is non-zero and within
`TAGMASK`; (iii) a newly managed client whose rules produce no tag bits
receives the monitor's currently viewed tag set; (iv) in every case
`applyrules` yields a non-zero bitmask within `TAGMASK`, given the
monitor-tagset invariant. -/
theorem toggletag_applyrules_tags_nonzero_in_mask
    (tags ui ruleTags monTagset : Nat)
    (htags0 : tags ≠ 0) (htagsm : tags &&& TAGMASK = tags)
    (hmon0 : monTagset ≠ 0) (hmonm : monTagset &&& TAGMASK = monTagset) :
    (tags ^^^ (ui &&& TAGMASK) = 0 → toggletagTags tags ui = tags) ∧
    (toggletagTags tags ui ≠ 0 ∧
      toggletagTags tags ui &&& TAGMASK = toggletagTags tags ui) ∧
    (ruleTags &&& TAGMASK = 0 → applyrulesTags ruleTags monTagset = monTagset) ∧
    (applyrulesTags ruleTags monTagset ≠ 0 ∧
      applyrulesTags ruleTags monTagset &&& TAGMASK =
        applyrulesTags ruleTags monTagset) := by
  refine ⟨?_, ⟨?_, ?_⟩, ?_, ?_, ?_⟩
  · intro h
    simp [toggletagTags, h]
  · by_cases h : tags ^^^ (ui &&& TAGMASK) = 0
    · simpa [toggletagTags, h] using htags0
    · simp [toggletagTags, h]
  · by_cases h : tags ^^^ (ui &&& TAGMASK) = 0
    · simpa [toggletagTags, h] using htagsm
    · have : (tags ^^^ (ui &&& TAGMASK)) &&& TAGMASK = tags ^^^ (ui &&& TAGMASK) := by
        rw [Nat.and_xor_distrib_right, htagsm, Nat.and_assoc, Nat.and_self]
      simpa [toggletagTags, h] using this
  · intro h
    simp [applyrulesTags, h]
  · by_cases h : ruleTags &&& TAGMASK = 0
    · simpa [applyrulesTags, h] using hmon0
    · simp [applyrulesTags, h]
  · by_cases h : ruleTags &&& TAGMASK = 0
    · simpa [applyrulesTags, h] using hmonm
    · simp [applyrulesTags, h, Nat.and_assoc]

/-- Witness for C4 at a concrete input: `tags = 1`, `ui = 3`,
`ruleTags = 0`, `monTagset = 2`. -/
theorem toggletag_applyrules_tags_nonzero_in_mask_witness :
    ((1 : Nat) ≠ 0 ∧ (1 : Nat) &&& TAGMASK = 1 ∧ (2 : Nat) ≠ 0 ∧
      (2 : Nat) &&& TAGMASK = 2) ∧
    toggletagTags 1 3 ≠ 0 ∧ applyrulesTags 0 2 = 2 := by
  have h := toggletag_applyrules_tags_nonzero_in_mask 1 3 0 2
    (by decide) (by decide) (by decide) (by decide)
  exact ⟨⟨by decide, by decide, by decide, by decide⟩, h.2.1.1,
    h.2.2.1 (by decide)⟩

/-! ## Theorems for claim C5 -/

/-- C5: `incnmaster` either leaves the master count unchanged (the request
was rejected as a no-op) or produces a value in `[1, n]` where `n` is the
current tiled-client count; and the re-clamp at the top of `tile` brings
any master count that is ≥ 1 back into `[1, max n 1]`. -/
theorem incnmaster_tile_master_count_clamped
    (hasArrange : Bool) (n : Nat) (nmaster i : Int)
    (h1 : 1 ≤ nmaster) (h2 : nmaster < 2 ^ 31) :
    (incnmasterOp hasArrange n nmaster i = nmaster ∨
      (1 ≤ incnmasterOp hasArrange n nmaster i ∧
        incnmasterOp hasArrange n nmaster i ≤ n)) ∧
    (1 ≤ tileClampNmaster n nmaster ∧
      tileClampNmaster n nmaster ≤ max (n : Int) 1) := by
  constructor
  · simp only [incnmasterOp]
    split
    · left
      rfl
    · rename_i hg
      push_neg at hg
      obtain ⟨-, hlo, hhi⟩ := hg
      right
      constructor <;> omega
  · have hp31 : (2 : Int) ^ 31 = 2147483648 := by norm_num
    rw [hp31] at h2
    have hm : nmaster % 2 ^ 32 = nmaster := by
      have hp32 : (2 : Int) ^ 32 = 4294967296 := by norm_num
      rw [hp32]
      omega
    simp only [tileClampNmaster, hm]
    split
    · split <;> omega
    · rename_i hgt
      constructor <;> omega

/-- Neither reload step touches the tagset buffers or the buffer index. -/
theorem viewReload_tagset (s : TagState) :
    (viewReload s).tagset = s.tagset ∧ (viewReload s).seltags = s.seltags := by
  unfold viewReload togglebarOp toggleebarOp
  constructor <;> (dsimp only; split <;> split <;> rfl)

theorem toggleviewReload_tagset (s : TagState) :
    (toggleviewReload s).tagset = s.tagset ∧
      (toggleviewReload s).seltags = s.seltags := by
  unfold toggleviewReload togglebarOp toggleebarOp
  constructor <;> (dsimp only; split <;> split <;> rfl)

theorem toggleviewCore_tagset (n : Nat) (s : TagState) :
    (toggleviewCore n s).tagset = Function.update s.tagset s.seltags n ∧
      (toggleviewCore n s).seltags = s.seltags := by
  unfold toggleviewCore
  constructor <;> (dsimp only; split <;> split <;> rfl)

/-- Unfolding equations for `viewOp` and `toggleviewOp` on the two sides
of their guards. -/
theorem viewOp_noop (ui : Nat) (s : TagState)
    (h : ui &&& TAGMASK = s.tagset s.seltags) : viewOp ui s = s := by
  unfold viewOp
  rw [if_pos h]

theorem viewOp_go (ui : Nat) (s : TagState)
    (h : ¬ui &&& TAGMASK = s.tagset s.seltags) :
    viewOp ui s = viewReload (viewCore ui s) := by
  unfold viewOp
  rw [if_neg h]

theorem toggleviewOp_rejected (ui : Nat) (s : TagState)
    (h : s.tagset s.seltags ^^^ (ui &&& TAGMASK) = 0) :
    toggleviewOp ui s = s := by
  unfold toggleviewOp
  rw [if_neg (not_not_intro h)]

theorem toggleviewOp_accepted (ui : Nat) (s : TagState)
    (h : s.tagset s.seltags ^^^ (ui &&& TAGMASK) ≠ 0) :
    toggleviewOp ui s =
      toggleviewReload (toggleviewCore (s.tagset s.seltags ^^^ (ui &&& TAGMASK)) s) := by
  unfold toggleviewOp
  rw [if_pos h]

/-! ## Theorems for claim C2 -/

/-- C2 as stated is false: `view` with a mask whose `TAGMASK` restriction
is empty is the "recall previous view" operation, and the second of two
consecutive `view(0)` calls flips the tagset buffer index again instead of
being a no-op.  Concretely, from `tagStateA` the second `view(0)` changes
the buffer index. -/
theorem view_second_call_not_noop :
    (viewOp 0 (viewOp 0 tagStateA)).seltags ≠ (viewOp 0 tagStateA).seltags := by
  decide

/-- C2 amended: for a mask with at least one configured-tag bit (that is,
`mask & TAGMASK ≠ 0` — every mask actually naming tags; `view(0)` is the
separate "recall previous view" operation), the second of two consecutive
`view` calls with the same mask is a no-op: it changes nothing at all. -/
theorem view_idempotent_on_nonempty_mask (ui : Nat) (s : TagState)
    (h : ui &&& TAGMASK ≠ 0) :
    viewOp ui (viewOp ui s) = viewOp ui s := by
  by_cases h0 : ui &&& TAGMASK = s.tagset s.seltags
  · have e := viewOp_noop ui s h0
    rw [e, e]
  · have hset : ui &&& TAGMASK = (viewOp ui s).tagset ((viewOp ui s).seltags) := by
      rw [viewOp_go ui s h0]
      have hr := viewReload_tagset (viewCore ui s)
      rw [hr.1, hr.2]
      simp only [viewCore, if_pos h]
      rw [Function.update_same]
    rw [viewOp_noop _ _ hset.symm.symm]

/-- Witness for the amended C2 at a concrete input: mask 2 from
`tagStateA`. -/
theorem view_idempotent_on_nonempty_mask_witness :
    (2 : Nat) &&& TAGMASK ≠ 0 ∧
    viewOp 2 (viewOp 2 tagStateA) = viewOp 2 tagStateA :=
  ⟨by decide, view_idempotent_on_nonempty_mask 2 tagStateA (by decide)⟩

/-! ## Theorems for claim C3 -/

/-- C3: `toggleview(X); toggleview(X)` restores the active tag mask
exactly — in fact it restores both tagset buffers and the buffer index —
for every starting state satisfying the mask invariant (the active mask is
non-empty; states with an empty active mask are unreachable).  If the
first XOR is rejected as zero, nothing changed and the second is rejected
identically; otherwise the second XOR undoes the first. -/
theorem toggleview_involutive_on_tagset (ui : Nat) (s : TagState)
    (h0 : s.tagset s.seltags ≠ 0) :
    (toggleviewOp ui (toggleviewOp ui s)).tagset = s.tagset ∧
      (toggleviewOp ui (toggleviewOp ui s)).seltags = s.seltags := by
  by_cases h1 : s.tagset s.seltags ^^^ (ui &&& TAGMASK) = 0
  · have e := toggleviewOp_rejected ui s h1
    rw [e, e]
    exact ⟨rfl, rfl⟩
  · have e1 := toggleviewOp_accepted ui s h1
    have hc1 := toggleviewCore_tagset (s.tagset s.seltags ^^^ (ui &&& TAGMASK)) s
    have hr1 := toggleviewReload_tagset
      (toggleviewCore (s.tagset s.seltags ^^^ (ui &&& TAGMASK)) s)
    have hset1 : (toggleviewOp ui s).tagset
        = Function.update s.tagset s.seltags (s.tagset s.seltags ^^^ (ui &&& TAGMASK)) := by
      rw [e1, hr1.1, hc1.1]
    have hsel1 : (toggleviewOp ui s).seltags = s.seltags := by
      rw [e1, hr1.2, hc1.2]
    have hact1 : (toggleviewOp ui s).tagset ((toggleviewOp ui s).seltags)
        = s.tagset s.seltags ^^^ (ui &&& TAGMASK) := by
      rw [hset1, hsel1, Function.update_same]
    have h2 : (toggleviewOp ui s).tagset ((toggleviewOp ui s).seltags) ^^^ (ui &&& TAGMASK)
        = s.tagset s.seltags := by
      rw [hact1, Nat.xor_assoc, Nat.xor_self, Nat.xor_zero]
    have h2ne : (toggleviewOp ui s).tagset ((toggleviewOp ui s).seltags) ^^^ (ui &&& TAGMASK) ≠ 0 := by
      rw [h2]
      exact h0
    have e2 := toggleviewOp_accepted ui (toggleviewOp ui s) h2ne
    have hc2 := toggleviewCore_tagset
      ((toggleviewOp ui s).tagset ((toggleviewOp ui s).seltags) ^^^ (ui &&& TAGMASK))
      (toggleviewOp ui s)
    have hr2 := toggleviewReload_tagset
      (toggleviewCore
        ((toggleviewOp ui s).tagset ((toggleviewOp ui s).seltags) ^^^ (ui &&& TAGMASK))
        (toggleviewOp ui s))
    constructor
    · rw [e2, hr2.1, hc2.1, h2, hset1, hsel1, Function.update_idem,
        Function.update_eq_self]
    · rw [e2, hr2.2, hc2.2, hsel1]

/-- Witness for C3 at a concrete input: mask 5 from `tagStateA`. -/
theorem toggleview_involutive_on_tagset_witness :
    tagStateA.tagset tagStateA.seltags ≠ 0 ∧
    (toggleviewOp 5 (toggleviewOp 5 tagStateA)).tagset
      = tagStateA.tagset :=
  ⟨by decide, (toggleview_involutive_on_tagset 5 tagStateA (by decide)).1⟩

/-! ## Theorems for claim C7 -/

/-- C7: a `setmfact` whose computed new ratio falls outside `[0.05, 0.95]`
leaves the whole state unchanged; an accepted ratio is written both into
the live `mfact` and into `Pertag[curtag]`, so it survives later tag
switches (which reload `mfact` from exactly that slot). -/
theorem setmfactOp_true_eq (f : ℚ) (s : TagState) :
    setmfactOp f true s =
      if (if f < 1 then f + s.mfact else f - 1) < 0.05 ∨
          (if f < 1 then f + s.mfact else f - 1) > 0.95 then s
      else { s with mfact := (if f < 1 then f + s.mfact else f - 1),
                    mfacts := Function.update s.mfacts s.curtag
                      (if f < 1 then f + s.mfact else f - 1) } := by
  unfold setmfactOp
  rw [if_neg (not_not_intro rfl)]

theorem setmfact_clamped_and_written_to_pertag (f : ℚ) (s : TagState) :
    (((if f < 1 then f + s.mfact else f - 1) < 0.05 ∨
        (if f < 1 then f + s.mfact else f - 1) > 0.95) →
      setmfactOp f true s = s) ∧
    ((0.05 ≤ (if f < 1 then f + s.mfact else f - 1) ∧
        (if f < 1 then f + s.mfact else f - 1) ≤ 0.95) →
      (setmfactOp f true s).mfact = (if f < 1 then f + s.mfact else f - 1) ∧
      (setmfactOp f true s).mfacts s.curtag =
        (if f < 1 then f + s.mfact else f - 1)) := by
  constructor
  · intro h
    rw [setmfactOp_true_eq, if_pos h]
  · intro hio
    have hg : ¬((if f < 1 then f + s.mfact else f - 1) < 0.05 ∨
        (if f < 1 then f + s.mfact else f - 1) > 0.95) := by
      push_neg
      exact hio
    rw [setmfactOp_true_eq, if_neg hg]
    refine ⟨rfl, ?_⟩
    show Function.update s.mfacts s.curtag
      (if f < 1 then f + s.mfact else f - 1) s.curtag = _
    rw [Function.update_same]

/-- Witness for C7 at a concrete input: a relative adjustment of +0.05
from `tagStateA` (whose ratio is 0.55). -/
theorem setmfact_clamped_and_written_to_pertag_witness :
    ((0.05 : ℚ) ≤ (if (0.05 : ℚ) < 1 then 0.05 + tagStateA.mfact else 0.05 - 1) ∧
      (if (0.05 : ℚ) < 1 then 0.05 + tagStateA.mfact else 0.05 - 1) ≤ 0.95) ∧
    (setmfactOp 0.05 true tagStateA).mfact =
      (if (0.05 : ℚ) < 1 then 0.05 + tagStateA.mfact else 0.05 - 1) := by
  have h := (setmfact_clamped_and_written_to_pertag 0.05 tagStateA).2
    ⟨by norm_num [tagStateA], by norm_num [tagStateA]⟩
  exact ⟨⟨by norm_num [tagStateA], by norm_num [tagStateA]⟩, h.1⟩

/-- Witness for C5 at a concrete input: 3 tiled clients, master count 1,
increment by 1. -/
theorem incnmaster_tile_master_count_clamped_witness :
    ((1 : Int) ≤ 1 ∧ (1 : Int) < 2 ^ 31) ∧
    (incnmasterOp true 3 1 1 = 1 ∨
      (1 ≤ incnmasterOp true 3 1 1 ∧ incnmasterOp true 3 1 1 ≤ 3)) ∧
    1 ≤ tileClampNmaster 3 1 := by
  have h := incnmaster_tile_master_count_clamped true 3 1 1
    (by decide) (by decide)
  exact ⟨⟨by decide, by decide⟩, h.1, h.2.1⟩

/-! ## List-membership lemmas for the attach/detach surgeries -/

theorem insertBeforeId_map_perm (selId : Nat) (c : Client) (l : List Client) :
    ((insertBeforeId selId c l).map Client.id).Perm (c.id :: l.map Client.id) := by
  induction l with
  | nil => simp [insertBeforeId]
  | cons a tl ih =>
    cases tl with
    | nil =>
      simp only [insertBeforeId, List.map_cons, List.map_nil]
      exact List.Perm.swap c.id a.id _
    | cons b tl2 =>
      by_cases hb : b.id = selId
      · simp only [insertBeforeId, if_pos hb, List.map_cons]
        exact List.Perm.swap c.id a.id _
      · simp only [insertBeforeId, if_neg hb, List.map_cons]
        exact (ih.cons a.id).trans (List.Perm.swap c.id a.id _)

theorem insertAfterId_map_perm (selId : Nat) (c : Client) (l : List Client) :
    ((insertAfterId selId c l).map Client.id).Perm (c.id :: l.map Client.id) := by
  induction l with
  | nil => simp [insertAfterId]
  | cons a tl ih =>
    by_cases ha : a.id = selId
    · simp only [insertAfterId, if_pos ha, List.map_cons]
      exact List.Perm.swap c.id a.id _
    · simp only [insertAfterId, if_neg ha, List.map_cons]
      exact (ih.cons a.id).trans (List.Perm.swap c.id a.id _)

theorem attachtopGo_map_perm (ctags nmaster : Nat) (c : Client) (l : List Client) :
    ∀ n, ((attachtopGo ctags nmaster n c l).map Client.id).Perm
      (c.id :: l.map Client.id) := by
  induction l with
  | nil =>
    intro n
    simp [attachtopGo]
  | cons a tl ih =>
    intro n
    cases tl with
    | nil =>
      simp only [attachtopGo, List.map_cons, List.map_nil]
      exact List.Perm.swap c.id a.id _
    | cons b tl2 =>
      simp only [attachtopGo]
      split
      · simp only [List.map_cons]
        exact List.Perm.swap c.id a.id _
      · simp only [List.map_cons]
        exact ((ih _).cons a.id).trans (List.Perm.swap c.id a.id _)

theorem eraseP_id_map (i : Nat) (l : List Client) :
    (l.eraseP (fun a => a.id == i)).map Client.id = (l.map Client.id).erase i := by
  induction l with
  | nil => simp
  | cons a tl ih =>
    by_cases ha : a.id = i
    · simp [List.eraseP_cons, List.erase_cons, ha]
    · simp [List.eraseP_cons, List.erase_cons, ha, ih]

theorem attach_spec (c : Client) (m : MonLists) :
    ((attach c m).clients.map Client.id).Perm (c.id :: m.clients.map Client.id) ∧
      (attach c m).stack = m.stack ∧ (attach c m).sel = m.sel :=
  ⟨List.Perm.refl _, rfl, rfl⟩

theorem attachByDirection_spec (dir : Nat) (c : Client) (m : MonLists) :
    ((attachByDirection dir c m).clients.map Client.id).Perm
      (c.id :: m.clients.map Client.id) ∧
    (attachByDirection dir c m).stack = m.stack ∧
    (attachByDirection dir c m).sel = m.sel := by
  match dir with
  | 1 =>
    simp only [attachByDirection]
    unfold attachabove
    cases hs : m.sel with
    | none => exact ⟨(attach_spec c m).1, rfl, hs⟩
    | some s =>
      dsimp only
      split
      · exact ⟨(attach_spec c m).1, rfl, hs⟩
      · exact ⟨insertBeforeId_map_perm s.id c m.clients, rfl, rfl⟩
  | 2 =>
    simp only [attachByDirection]
    unfold attachaside
    cases hs : nexttagged c m with
    | none => exact attach_spec c m
    | some a => exact ⟨insertAfterId_map_perm a.id c m.clients, rfl, rfl⟩
  | 3 =>
    simp only [attachByDirection]
    unfold attachbelow
    cases hs : m.sel with
    | none => exact ⟨(attach_spec c m).1, rfl, hs⟩
    | some s =>
      dsimp only
      split
      · exact ⟨(attach_spec c m).1, rfl, hs⟩
      · exact ⟨insertAfterId_map_perm s.id c m.clients, rfl, rfl⟩
  | 4 =>
    refine ⟨?_, rfl, rfl⟩
    show ((m.clients ++ [c]).map Client.id).Perm _
    rw [List.map_append]
    simpa using List.perm_append_singleton c.id (m.clients.map Client.id)
  | 5 => exact ⟨attachtopGo_map_perm c.tags m.nmaster c m.clients 1, rfl, rfl⟩
  | 0 => exact attach_spec c m
  | (k + 6) => exact attach_spec c m

theorem manage_clients_stack (dir : Nat) (fc : Bool) (c : Client) (m : MonLists) :
    (manage dir fc c m).clients = (attachByDirection dir c m).clients ∧
    ((manage dir fc c m).stack.map Client.id).Perm
      (c.id :: (attachByDirection dir c m).stack.map Client.id) := by
  unfold manage
  cases fc with
  | true =>
    dsimp only
    rw [if_pos rfl]
    cases hs : (attachByDirection dir c m).sel with
    | none => exact ⟨rfl, List.Perm.refl _⟩
    | some s =>
      dsimp only
      rw [if_pos (by simp)]
      exact ⟨rfl, List.Perm.refl _⟩
  | false =>
    dsimp only
    rw [if_neg Bool.false_ne_true]
    cases hs : (attachByDirection dir c m).sel with
    | none => exact ⟨rfl, List.Perm.refl _⟩
    | some s =>
      dsimp only
      split
      · exact ⟨rfl, List.Perm.refl _⟩
      · exact ⟨rfl, insertAfterId_map_perm s.id c _⟩

/-! ## Theorems for claim C1 -/

/-- C1: every list-mutating operation (managing a new window — under any
attach policy, with or without focus stealing —, unmanaging a destroyed
one, the two halves of moving a client between monitors, and the focus
re-stack) preserves the invariant that the clients list and the stack list
of a monitor hold exactly the same multiset of clients, in different
orders.  `opPrecond` records the one caller guarantee used: `focus` is
only handed clients the monitor manages. -/
theorem clients_stack_same_set (op : Op) (m : MonLists)
    (hinv : (m.clients.map Client.id).Perm (m.stack.map Client.id))
    (hpre : opPrecond op m) :
    ((stepOp op m).clients.map Client.id).Perm
      ((stepOp op m).stack.map Client.id) := by
  cases op with
  | manageNew dir fc c =>
    obtain ⟨hperm, hstk, -⟩ := attachByDirection_spec dir c m
    obtain ⟨hcl, hsp⟩ := manage_clients_stack dir fc c m
    show ((manage dir fc c m).clients.map Client.id).Perm
      ((manage dir fc c m).stack.map Client.id)
    rw [hcl]
    refine hperm.trans ((hinv.cons c.id).trans ?_)
    refine List.Perm.trans ?_ hsp.symm
    rw [hstk]
  | unmanageOld c =>
    show ((unmanage c m).clients.map Client.id).Perm
      ((unmanage c m).stack.map Client.id)
    unfold unmanage detachstack detach
    dsimp only
    rw [eraseP_id_map, eraseP_id_map]
    exact hinv.erase c.id
  | sendAway c =>
    show ((sendmonAway c m).clients.map Client.id).Perm
      ((sendmonAway c m).stack.map Client.id)
    unfold sendmonAway detachstack detach
    dsimp only
    rw [eraseP_id_map, eraseP_id_map]
    exact hinv.erase c.id
  | sendInto dir c =>
    obtain ⟨hperm, hstk, -⟩ := attachByDirection_spec dir { c with tags := m.tagset } m
    show ((attachByDirection dir { c with tags := m.tagset } m).clients.map Client.id).Perm
      (({ c with tags := m.tagset } : Client).id ::
        ((attachByDirection dir { c with tags := m.tagset } m).stack.map Client.id))
    rw [hstk]
    exact hperm.trans (hinv.cons _)
  | focusChange cand =>
    have key : ∀ c' : Client, c'.id ∈ m.stack.map Client.id →
        ((attachstack c' (detachstack c' m)).clients.map Client.id).Perm
          ((attachstack c' (detachstack c' m)).stack.map Client.id) := by
      intro c' hmem
      show (m.clients.map Client.id).Perm
        (c'.id :: ((m.stack.eraseP fun a => a.id == c'.id).map Client.id))
      rw [eraseP_id_map]
      exact hinv.trans (List.perm_cons_erase hmem)
    show ((focus cand m).clients.map Client.id).Perm
      ((focus cand m).stack.map Client.id)
    unfold focus
    cases cand with
    | none =>
      dsimp only
      cases hf : m.stack.find? (isVisibleOn m.tagset) with
      | none => exact hinv
      | some cf =>
        dsimp only
        exact key cf (List.mem_map_of_mem Client.id (List.mem_of_find?_eq_some hf))
    | some c0 =>
      dsimp only
      by_cases hv : isVisibleOn m.tagset c0 = true
      · rw [if_pos hv]
        exact key c0 (hpre hv)
      · rw [if_neg hv]
        cases hf : m.stack.find? (isVisibleOn m.tagset) with
        | none => exact hinv
        | some cf =>
          dsimp only
          exact key cf (List.mem_map_of_mem Client.id (List.mem_of_find?_eq_some hf))

/-- Witness for C1 at a concrete input: manage a second client with the
default `attachdirection = 2` (aside) onto a one-client monitor. -/
theorem clients_stack_same_set_witness :
    ((monA.clients.map Client.id).Perm (monA.stack.map Client.id) ∧
      opPrecond (Op.manageNew 2 true clientB) monA) ∧
    ((stepOp (Op.manageNew 2 true clientB) monA).clients.map Client.id).Perm
      ((stepOp (Op.manageNew 2 true clientB) monA).stack.map Client.id) :=
  ⟨⟨by decide, trivial⟩,
   clients_stack_same_set (Op.manageNew 2 true clientB) monA (by decide) trivial⟩

/-! ## Theorems for claim C10 -/

/-- C10: after `detachstack(c)` where `c` was the selected client, the
monitor's selection is exactly the first visible client of the remaining
stack: whatever it selects is on the remaining stack and visible under the
current tag view, and it selects nothing only when no remaining stacked
client is visible.  The selection therefore never points at a detached or
invisible client. -/
theorem detachstack_reselects_first_visible (c s : Client) (m : MonLists)
    (hsel : m.sel = some s) (hid : s.id = c.id) :
    (detachstack c m).sel
      = (detachstack c m).stack.find? (isVisibleOn m.tagset) ∧
    (∀ t, (detachstack c m).sel = some t →
      t ∈ (detachstack c m).stack ∧ isVisibleOn m.tagset t = true) ∧
    ((detachstack c m).sel = none →
      ∀ t ∈ (detachstack c m).stack, ¬isVisibleOn m.tagset t = true) := by
  have hstk : (detachstack c m).stack = m.stack.eraseP fun a => a.id == c.id := rfl
  have hsel' : (detachstack c m).sel
      = (m.stack.eraseP fun a => a.id == c.id).find? (isVisibleOn m.tagset) := by
    unfold detachstack
    dsimp only
    rw [hsel]
    dsimp only
    rw [if_pos hid]
  refine ⟨by rw [hsel', hstk], ?_, ?_⟩
  · intro t ht
    rw [hsel'] at ht
    exact ⟨by rw [hstk]; exact List.mem_of_find?_eq_some ht, List.find?_some ht⟩
  · intro hnone t ht
    rw [hsel'] at hnone
    rw [hstk] at ht
    exact List.find?_eq_none.mp hnone t ht

/-- Witness for C10 at a concrete input: detach the only (selected) client;
the remaining stack is empty, so the selection becomes empty. -/
theorem detachstack_reselects_first_visible_witness :
    (monA.sel = some clientA ∧ clientA.id = clientA.id) ∧
    (detachstack clientA monA).sel
      = (detachstack clientA monA).stack.find? (isVisibleOn monA.tagset) :=
  ⟨⟨rfl, rfl⟩,
   (detachstack_reselects_first_visible clientA clientA monA rfl rfl).1⟩

/-! ## Theorems for claim C6 -/

theorem tileRowWidths_getD (X w gap bw total : ℚ) (l : List ℚ) :
    ∀ x i, i + 1 < l.length →
      (tileRowWidths X x w gap bw total l).getD i 0
        = w * (l.getD i 0 / total) - 2 * bw - gap := by
  induction l with
  | nil =>
    intro x i h
    simp at h
  | cons f tl ih =>
    intro x i h
    cases tl with
    | nil => simp at h
    | cons g tl2 =>
      cases i with
      | zero => simp [tileRowWidths]
      | succ j =>
        have h' : j + 1 < (g :: tl2).length := by
          simpa using h
        simpa [tileRowWidths] using
          ih (x + (w * (f / total) - 2 * bw - gap) + 2 * bw + gap) j h'

theorem tileRowWidths_fill (w gap bw total : ℚ) (l : List ℚ) :
    ∀ X x, l ≠ [] →
      ((tileRowWidths X x w gap bw total l).map
        (fun wi => wi + 2 * bw + gap)).sum = X - x := by
  induction l with
  | nil =>
    intro X x h
    exact absurd rfl h
  | cons f tl ih =>
    intro X x h
    cases tl with
    | nil =>
      simp [tileRowWidths]
      ring
    | cons g tl2 =>
      have hrec := ih X (x + (w * (f / total) - 2 * bw - gap) + 2 * bw + gap)
        (List.cons_ne_nil g tl2)
      simp only [tileRowWidths, List.map_cons, List.sum_cons, hrec]
      ring

/-- C6: in a tiled group the slot allotted to each non-last client — its
computed extent plus the fixed border/gap deduction — is exactly
`w * (cfact / sum of the group's cfacts)`, i.e. proportional to its cfact
share (with zero gap and border the extent itself is exactly
proportional); and the slots of all clients sum to exactly the group
extent `w`, so the last client, which receives `X1 - x1 - 2*bw - gappx`,
absorbs all remaining space and leaves no rounding gap at the far group
edge `X1 = x1 + w`. -/
theorem tile_group_weighted_no_far_gap (x w gap bw : ℚ) (cfacts : List ℚ)
    (hne : cfacts ≠ []) :
    (∀ i, i + 1 < cfacts.length →
      (tileRowWidths (x + w) x w gap bw cfacts.sum cfacts).getD i 0
          + 2 * bw + gap
        = w * (cfacts.getD i 0 / cfacts.sum)) ∧
    ((tileRowWidths (x + w) x w gap bw cfacts.sum cfacts).map
        (fun wi => wi + 2 * bw + gap)).sum = w ∧
    (gap = 0 → bw = 0 → ∀ i, i + 1 < cfacts.length →
      (tileRowWidths (x + w) x w gap bw cfacts.sum cfacts).getD i 0
        = w * (cfacts.getD i 0 / cfacts.sum)) := by
  refine ⟨?_, ?_, ?_⟩
  · intro i h
    rw [tileRowWidths_getD (x + w) w gap bw cfacts.sum cfacts x i h]
    ring
  · rw [tileRowWidths_fill w gap bw cfacts.sum cfacts (x + w) x hne]
    ring
  · intro hg hb i h
    rw [tileRowWidths_getD (x + w) w gap bw cfacts.sum cfacts x i h, hg, hb]
    ring

/-- Witness for C6 at a concrete input: three clients with cfacts 1, 1, 2
in a group of extent 100 starting at 0, gap 2, border 1. -/
theorem tile_group_weighted_no_far_gap_witness :
    ([(1 : ℚ), 1, 2] ≠ []) ∧
    ((tileRowWidths (0 + 100) 0 100 2 1 ([(1 : ℚ), 1, 2]).sum
        [(1 : ℚ), 1, 2]).map (fun wi => wi + 2 * 1 + 2)).sum = 100 :=
  ⟨by simp,
   (tile_group_weighted_no_far_gap 0 100 2 1 [(1 : ℚ), 1, 2] (by simp)).2.1⟩

/-! ## Theorems for claim C8 -/

theorem getfloatpos_centered_half (a mp cp0 cs0 cbw dg : Int) (ha : 0 ≤ a)
    (hbw : 2 * cbw + 1 ≤ 2 * a) :
    getfloatpos 50 '%' 50 '%' mp (4 * a) cp0 cs0 cbw dg
      = (mp + a, 2 * a - 2 * cbw) := by
  unfold getfloatpos
  simp
  have h1 : (4 * a * 50).tdiv 100 = 2 * a := by
    rw [show 4 * a * 50 = 100 * (2 * a) by ring]
    exact Int.mul_tdiv_cancel_left _ (by norm_num)
  have h2 : (2 * a).tdiv 2 = a := Int.mul_tdiv_cancel_left _ (by norm_num)
  rw [h1]
  rw [if_neg (show ¬(4 * a < 2 * a) by omega)]
  rw [h2]
  split_ifs <;> omega

theorem scan_centered :
    scanFloatpos "50% 50% 50% 50%"
      = (8, [(50, '%'), (50, '%'), (50, '%'), (50, '%')]) := by
  decide

/-- C8: resolving the centered-50%/50%-size-50%/50% expression
`"50% 50% 50% 50%"` for a floating client against a work area of width
`W = 4a` and height `H = 4b` at origin `(wx, wy)` yields a client of width
`W/2 - 2*border` and height `H/2 - 2*border` positioned at
`(wx + W/4, wy + H/4)` — the `%` position mode centers the client
mid-point at 50% of the work area, so its near edge sits at a quarter of
the extent; only the size carries the border subtraction. -/
theorem setfloatpos_centered_half_geometry
    (a b wx wy cbw gx gy rx ry cx cy cw ch : Int)
    (ha : 0 ≤ a) (hb : 0 ≤ b)
    (hbwa : 2 * cbw + 1 ≤ 2 * a) (hbwb : 2 * cbw + 1 ≤ 2 * b) :
    setfloatposGeom false true wx wy (4 * a) (4 * b) cbw gx gy rx ry
      { x := cx, y := cy, w := cw, h := ch } "50% 50% 50% 50%"
      = { x := wx + a, y := wy + b, w := 2 * a - 2 * cbw,
          h := 2 * b - 2 * cbw } := by
  unfold setfloatposGeom
  rw [if_neg (by simp)]
  simp only [scan_centered]
  norm_num
  rw [if_neg (show ¬('%' = 'm' ∨ '%' = 'M') by simp)]
  norm_num [getfloatpos_centered_half a wx cx cw cbw gx ha hbwa,
    getfloatpos_centered_half b wy cy ch cbw gy hb hbwb]

/-- Witness for C8 at a concrete input: work area 400x300 at (5, 7),
border 1. -/
theorem setfloatpos_centered_half_geometry_witness :
    ((0 : Int) ≤ 100 ∧ (0 : Int) ≤ 75 ∧
      2 * 1 + 1 ≤ 2 * (100 : Int) ∧ 2 * 1 + 1 ≤ 2 * (75 : Int)) ∧
    setfloatposGeom false true 5 7 (4 * 100) (4 * 75) 1 5 5 0 0
      { x := 3, y := 4, w := 10, h := 10 } "50% 50% 50% 50%"
      = { x := 5 + 100, y := 7 + 75, w := 2 * 100 - 2 * 1,
          h := 2 * 75 - 2 * 1 } :=
  ⟨⟨by decide, by decide, by decide, by decide⟩,
   setfloatpos_centered_half_geometry 100 75 5 7 1 5 5 0 0 3 4 10 10
     (by decide) (by decide) (by decide) (by decide)⟩

/-! ## Theorems for claim C9 -/

/-- C9: a floating-position expression whose scan count is neither 4 nor 8
(it parses as neither the 4-field nor the 8-field form) leaves the
client's geometry `(x, y, w, h)` completely unchanged — `setfloatpos`
returns before touching it, with no error and no partial update. -/
theorem setfloatpos_unparseable_noop (hA fl : Bool)
    (wx wy ww wh bw gx gy rx ry : Int) (g : Geom) (fp : String)
    (h4 : (scanFloatpos fp).1 ≠ 4) (h8 : (scanFloatpos fp).1 ≠ 8) :
    setfloatposGeom hA fl wx wy ww wh bw gx gy rx ry g fp = g := by
  unfold setfloatposGeom
  split
  · rfl
  · dsimp only
    rw [if_neg h4, if_neg h8]

/-- Witness for C9 at a concrete input: the unparseable expression
`"banana"` (scan count 0). -/
theorem setfloatpos_unparseable_noop_witness :
    ((scanFloatpos "banana").1 ≠ 4 ∧ (scanFloatpos "banana").1 ≠ 8) ∧
    setfloatposGeom false true 0 0 400 300 1 5 5 0 0
      { x := 3, y := 4, w := 10, h := 10 } "banana"
      = { x := 3, y := 4, w := 10, h := 10 } :=
  ⟨⟨by decide, by decide⟩,
   setfloatpos_unparseable_noop false true 0 0 400 300 1 5 5 0 0
     { x := 3, y := 4, w := 10, h := 10 } "banana" (by decide) (by decide)⟩
